import Mathlib

/-!
Verification of the libosmium geometry-factory and diff-visitor excerpt.

The C++ sources embedded here are `osmium/geom/factory.hpp` (the
`GeometryFactory` class template: `create_point`, `create_linestring`,
`create_multipolygon`, `add_points`) and `osmium/diff_visitor.hpp`
(`apply_diff` and `detail::apply_diff_iterator_recurse`).

The engine functions are modelled as producing the ordered list of backend
calls they perform (`Event` trace) together with an optional error; the
engine itself uses no exception handler, so a raised error truncates the
trace exactly where the C++ exception unwinds out of the construction call.
-/

namespace Osmium

/-- `osmium::Location`: a coordinate pair or the undefined sentinel produced
by the default constructor.  Equality is value equality and the sentinel is
equal only to itself, exactly as the C++ `operator==` behaves. -/
inductive Location where
  | undefined : Location
  | coord : Int → Int → Location
deriving DecidableEq, Repr

/-- `osmium::NodeRef`: a node id plus a Location. -/
structure NodeRef where
  ref : Int
  location : Location
deriving DecidableEq, Repr

/-- `osmium::Node` as far as the factory uses it: it exposes a Location. -/
structure Node where
  id : Int
  location : Location
deriving DecidableEq, Repr

/-- `osmium::geom::use_nodes`. -/
inductive use_nodes where
  | unique : use_nodes
  | all : use_nodes
deriving DecidableEq, Repr

/-- `osmium::geom::direction`. -/
inductive direction where
  | forward : direction
  | backward : direction
deriving DecidableEq, Repr

/-- The error taxonomy of the excerpt: `osmium::geometry_error` (carrying its
message) and `osmium::invalid_location`. -/
inductive GeomError where
  | geometry_error (msg : String) : GeomError
  | invalid_location : GeomError
deriving DecidableEq, Repr

/-- A call into the geometry backend, as performed by the factory. -/
inductive Event where
  | linestring_start : Event
  | linestring_add_location (loc : Location) : Event
  | linestring_finish : Event
  | multipolygon_start : Event
  | multipolygon_outer_ring_start : Event
  | multipolygon_outer_ring_finish : Event
  | multipolygon_inner_ring_start : Event
  | multipolygon_inner_ring_finish : Event
  | multipolygon_add_location (loc : Location) : Event
  | multipolygon_finish : Event
deriving DecidableEq, Repr

/-- The consecutive-duplicate collapsing loop of `create_linestring`
(`use_nodes::unique`) and of `add_points`: `last` is the C++ `last_location`
variable; an element is emitted (and `last` updated) exactly when it differs
from `last`. -/
def collapse (last : Location) : List Location → List Location
  | [] => []
  | l :: rest => if last = l then collapse last rest else l :: collapse l rest

/-- Sentinel-free consecutive-duplicate collapsing: keeps the first element
of every run.  `collapse Location.undefined` agrees with it whenever the
sentinel does not occur in the list (`collapse_eq_collapse0`). -/
def collapse0 : List Location → List Location
  | [] => []
  | l :: rest => l :: collapse l rest

/-- The locations of a way node list, in stored order. -/
def way_node_locations (wnl : List NodeRef) : List Location :=
  wnl.map NodeRef.location

/-- The order in which `create_linestring` visits the node locations: the
`direction::forward` branch iterates the list, the `direction::backward`
branch indexes from `size()-1` down to `0`, which visits the reversed
sequence. -/
def traverse (wnl : List NodeRef) (dir : direction) : List Location :=
  match dir with
  | direction.forward => way_node_locations wnl
  | direction.backward => (way_node_locations wnl).reverse

/-- The coordinate sequence `create_linestring` hands to the backend via
`linestring_add_location`: the traversal order, collapsed against the
default-constructed (undefined) `last_location` when `use_nodes::unique`. -/
def linestring_points (wnl : List NodeRef) (un : use_nodes) (dir : direction) :
    List Location :=
  match un with
  | use_nodes.unique => collapse Location.undefined (traverse wnl dir)
  | use_nodes.all => traverse wnl dir

/-- Modelled from the spec: the backend operation `linestring_add_location`
(capability contract, spec §4.1) must fail with `invalid_location` on an
undefined Location; the concrete backend source is not part of this excerpt.
Runs the adds in order, recording each call performed (the failing call
included) and stopping at the first failure, as C++ exception unwinding
does. -/
def linestring_add_run : List Location → List Event × Option GeomError
  | [] => ([], none)
  | l :: rest =>
    if l = Location.undefined then
      ([Event.linestring_add_location l], some GeomError.invalid_location)
    else
      let p := linestring_add_run rest
      (Event.linestring_add_location l :: p.1, p.2)

/-- `GeometryFactory::create_linestring`, as the trace of backend calls it
performs plus the error it lets escape, if any.  On an error the
`linestring_finish` call is never reached, because the C++ function has no
handler: the exception unwinds straight out. -/
def create_linestring (wnl : List NodeRef) (un : use_nodes) (dir : direction) :
    List Event × Option GeomError :=
  let p := linestring_add_run (linestring_points wnl un dir)
  match p.2 with
  | some e => (Event.linestring_start :: p.1, some e)
  | none => (Event.linestring_start :: p.1 ++ [Event.linestring_finish], none)

/-- `osmium::item_type`: the closed enumeration of item kinds.  Only
`node`, `way`, `relation` are legal diff kinds, and only `outer_ring`,
`inner_ring` are ring items of an Area; the rest exist in the model and are
handled by the `default` / skip branches of the code. -/
inductive item_type where
  | undefined : item_type
  | node : item_type
  | way : item_type
  | relation : item_type
  | area : item_type
  | changeset : item_type
  | tag_list : item_type
  | way_node_list : item_type
  | relation_member_list : item_type
  | outer_ring : item_type
  | inner_ring : item_type
deriving DecidableEq, Repr

/-- One item of an `osmium::Area`'s item collection, as `create_multipolygon`
iterates it: an item type plus the node list the ring cast exposes. -/
structure AreaItem where
  type : item_type
  nodes : List NodeRef
deriving DecidableEq, Repr

/-- `GeometryFactory::add_points`: appends a ring's locations with the same
consecutive-duplicate collapsing loop as the `unique` linestring case, the
`last_location` again starting as the default-constructed (undefined)
Location.  There is no `use_nodes` parameter here. -/
def add_points (nodes : List NodeRef) : List Location :=
  collapse Location.undefined (way_node_locations nodes)

/-- Whether an area item counts as a ring (`outer_ring` or `inner_ring`);
exactly these increment `num_rings` in `create_multipolygon`. -/
def is_ring (t : item_type) : Bool :=
  t = item_type.outer_ring || t = item_type.inner_ring

/-- The final value of the `num_rings` counter of `create_multipolygon`. -/
def num_rings (items : List AreaItem) : Nat :=
  (items.filter (fun it => is_ring it.type)).length

/-- The backend calls `create_multipolygon` performs for one area item: a
ring sub-session around the collapsed points for `outer_ring`/`inner_ring`,
nothing for any other item type (no branch of the if/else chain matches). -/
def ring_events (item : AreaItem) : List Event :=
  match item.type with
  | item_type.outer_ring =>
      Event.multipolygon_outer_ring_start ::
        (add_points item.nodes).map Event.multipolygon_add_location ++
          [Event.multipolygon_outer_ring_finish]
  | item_type.inner_ring =>
      Event.multipolygon_inner_ring_start ::
        (add_points item.nodes).map Event.multipolygon_add_location ++
          [Event.multipolygon_inner_ring_finish]
  | _ => []

/-- `GeometryFactory::create_multipolygon`, as its trace of backend calls
plus the error it lets escape.  The loop over the items runs to completion,
then `num_rings == 0` raises `geometry_error("invalid area")` — after
`multipolygon_start` was already called and without ever reaching
`multipolygon_finish`, since the function has no handler. -/
def create_multipolygon (items : List AreaItem) : List Event × Option GeomError :=
  let body := items.flatMap ring_events
  if num_rings items = 0 then
    (Event.multipolygon_start :: body,
      some (GeomError.geometry_error "invalid area"))
  else
    (Event.multipolygon_start :: body ++ [Event.multipolygon_finish], none)

/-- Modelled from the spec: the backend operation `make_point` (capability
contract, spec §4.1) must fail with `invalid_location` if the Location is
undefined; the concrete backend source is not part of this excerpt.  On a
defined Location it produces the point's coordinate pair. -/
def make_point (loc : Location) : Except GeomError (Int × Int) :=
  match loc with
  | Location.undefined => Except.error GeomError.invalid_location
  | Location.coord x y => Except.ok (x, y)

/-- `GeometryFactory::create_point(Location)`: delegates to `make_point`. -/
def create_point (loc : Location) : Except GeomError (Int × Int) :=
  make_point loc

/-- `GeometryFactory::create_point(Node)`: calls `create_point` on the
node's location. -/
def create_point_node (n : Node) : Except GeomError (Int × Int) :=
  create_point n.location

/-- `GeometryFactory::create_point(NodeRef)`: calls `create_point` on the
way node's location. -/
def create_point_node_ref (nr : NodeRef) : Except GeomError (Int × Int) :=
  create_point nr.location

/-- The kinds of backend session that can be open: linestring,
multipolygon, outer ring, inner ring. -/
inductive SessionKind where
  | line : SessionKind
  | multi : SessionKind
  | outer : SessionKind
  | inner : SessionKind
deriving DecidableEq, Repr

/-- One step of the session-bracketing discipline: a start pushes its
session onto the stack, a finish must pop the matching session, an
`add_location` leaves the stack unchanged.  `none` means the trace violates
the bracket discipline. -/
def session_step (st : List SessionKind) (e : Event) : Option (List SessionKind) :=
  match e, st with
  | Event.linestring_start, _ => some (SessionKind.line :: st)
  | Event.linestring_finish, SessionKind.line :: rest => some rest
  | Event.linestring_finish, _ => none
  | Event.multipolygon_start, _ => some (SessionKind.multi :: st)
  | Event.multipolygon_finish, SessionKind.multi :: rest => some rest
  | Event.multipolygon_finish, _ => none
  | Event.multipolygon_outer_ring_start, _ => some (SessionKind.outer :: st)
  | Event.multipolygon_outer_ring_finish, SessionKind.outer :: rest => some rest
  | Event.multipolygon_outer_ring_finish, _ => none
  | Event.multipolygon_inner_ring_start, _ => some (SessionKind.inner :: st)
  | Event.multipolygon_inner_ring_finish, SessionKind.inner :: rest => some rest
  | Event.multipolygon_inner_ring_finish, _ => none
  | Event.linestring_add_location _, _ => some st
  | Event.multipolygon_add_location _, _ => some st

/-- Runs a trace through `session_step` from a given stack. -/
def run_sessions (st : List SessionKind) : List Event → Option (List SessionKind)
  | [] => some st
  | e :: rest =>
    match session_step st e with
    | some st2 => run_sessions st2 rest
    | none => none

/-- A trace is session-balanced when every opened session is closed by its
matching finish exactly once and no finish occurs without its open. -/
def sessions_balanced (tr : List Event) : Bool :=
  run_sessions [] tr = some []

/-- `osmium::DiffObject`, as far as the dispatcher inspects it: its item
type tag plus an (opaque) id standing for its payload. -/
structure DiffObject where
  type : item_type
  id : Int
deriving DecidableEq, Repr

/-- One handler callback invocation: which kind-specific callback was
invoked, on which handler (identified by its registration id), with which
DiffObject (down-cast to the matching view in the C++ code). -/
inductive HandlerCall where
  | node (handler : Nat) (d : DiffObject) : HandlerCall
  | way (handler : Nat) (d : DiffObject) : HandlerCall
  | relation (handler : Nat) (d : DiffObject) : HandlerCall
deriving DecidableEq, Repr

/-- The kind-appropriate callback for a DiffObject on a handler, when the
DiffObject's type tag is in the closed set `{node, way, relation}`. -/
def kind_call (d : DiffObject) (h : Nat) : Option HandlerCall :=
  match d.type with
  | item_type.node => some (HandlerCall.node h d)
  | item_type.way => some (HandlerCall.way h d)
  | item_type.relation => some (HandlerCall.relation h d)
  | _ => none

/-- `detail::apply_diff_iterator_recurse` (single-handler base case): switch
on the DiffObject's type, invoke the matching callback, and throw
`std::runtime_error("unknown type")` on the default branch. -/
def apply_diff_iterator_recurse (d : DiffObject) (h : Nat) :
    Except String HandlerCall :=
  match d.type with
  | item_type.node => Except.ok (HandlerCall.node h d)
  | item_type.way => Except.ok (HandlerCall.way h d)
  | item_type.relation => Except.ok (HandlerCall.relation h d)
  | _ => Except.error "unknown type"

/-- The variadic recursion of `detail::apply_diff_iterator_recurse`: the
same diff is dispatched to each handler in registration order; an exception
from one handler call aborts the rest. -/
def apply_diff_recurse (d : DiffObject) : List Nat → Except String (List HandlerCall)
  | [] => Except.ok []
  | h :: hs =>
    match apply_diff_iterator_recurse d h with
    | Except.error e => Except.error e
    | Except.ok c =>
      match apply_diff_recurse d hs with
      | Except.error e => Except.error e
      | Except.ok cs => Except.ok (c :: cs)

/-- `osmium::apply_diff`: one forward pass over the DiffObject sequence the
merge collaborator (`DiffIterator`, external to this excerpt) produces; for
each diff in order, dispatch to every handler in registration order.  An
exception aborts the remaining dispatch. -/
def apply_diff : List DiffObject → List Nat → Except String (List HandlerCall)
  | [], _ => Except.ok []
  | d :: ds, hs =>
    match apply_diff_recurse d hs with
    | Except.error e => Except.error e
    | Except.ok cs =>
      match apply_diff ds hs with
      | Except.error e => Except.error e
      | Except.ok rest => Except.ok (cs ++ rest)

/-- When the sentinel does not occur in the list, the sentinel-seeded
collapsing loop agrees with the sentinel-free one: the first element always
differs from the sentinel, so it is always emitted. -/
theorem collapse_eq_collapse0 (xs : List Location) (u : Location) (hu : u ∉ xs) :
    collapse u xs = collapse0 xs := by
  cases xs with
  | nil => rfl
  | cons x rest =>
    have hux : u ≠ x := by
      intro h
      exact hu (h ▸ List.mem_cons_self x rest)
    simp [collapse, collapse0, hux]

/-- Equation: a value equal to the loop state is skipped. -/
theorem collapse_cons_self (a : Location) (l : List Location) :
    collapse a (a :: l) = collapse a l := by
  simp [collapse]

/-- Equation: a value different from the loop state is emitted and becomes
the new state. -/
theorem collapse_cons_ne (a x : Location) (l : List Location) (h : a ≠ x) :
    collapse a (x :: l) = x :: collapse x l := by
  simp [collapse, h]

/-- Appending one element to the processed list: it is emitted exactly when
it differs from the loop state, which after the list is its last element
(or the seed if the list is empty). -/
theorem collapse_append (xs : List Location) (y : Location) :
    ∀ a, collapse a (xs ++ [y]) =
      if xs.getLastD a = y then collapse a xs else collapse a xs ++ [y] := by
  induction xs with
  | nil =>
    intro a
    rw [List.nil_append, List.getLastD_nil]
    by_cases hay : a = y
    · rw [if_pos hay, hay, collapse_cons_self]
    · rw [if_neg hay, collapse_cons_ne a y [] hay]
      rfl
  | cons x rest ih =>
    intro a
    rw [List.cons_append, List.getLastD_cons]
    by_cases hax : a = x
    · rw [hax, collapse_cons_self, collapse_cons_self, ih x]
    · rw [collapse_cons_ne a x (rest ++ [y]) hax, collapse_cons_ne a x rest hax,
        ih x]
      split <;> rfl

/-- `collapse_append` for the sentinel-free collapsing. -/
theorem collapse0_append (ys : List Location) (y : Location) :
    collapse0 (ys ++ [y]) =
      if ys.getLast? = some y then collapse0 ys else collapse0 ys ++ [y] := by
  cases ys with
  | nil => simp [collapse0, collapse]
  | cons h t =>
    show collapse0 (h :: (t ++ [y])) = _
    simp only [collapse0, collapse_append, List.getLast?_cons, Option.some_inj,
      List.getLastD_eq_getLast?]
    split <;> rfl

/-- Consecutive-duplicate collapsing commutes with reversal: collapsing
keeps one representative per run of equal values, and reversing the list
reverses the runs. -/
theorem collapse0_reverse (xs : List Location) :
    collapse0 xs.reverse = (collapse0 xs).reverse := by
  induction xs with
  | nil => rfl
  | cons x rest ih =>
    rw [List.reverse_cons, collapse0_append, List.getLast?_reverse]
    cases rest with
    | nil => simp [collapse0, collapse]
    | cons z zs =>
      by_cases hzx : z = x
      · subst hzx
        rw [List.head?_cons, if_pos rfl, ih]
        simp [collapse0, collapse]
      · rw [List.head?_cons, if_neg (by simp [hzx]), ih]
        simp [collapse0, collapse, Ne.symm hzx]

/-- The sentinel-seeded collapsing commutes with reversal as long as the
sentinel does not occur in the list. -/
theorem collapse_reverse_of_not_mem (xs : List Location) (u : Location)
    (hu : u ∉ xs) : collapse u xs.reverse = (collapse u xs).reverse := by
  rw [collapse_eq_collapse0 _ _ (by simpa using hu),
    collapse_eq_collapse0 _ _ hu, collapse0_reverse]

/-- The collapsing loop never emits two consecutive equal values (stated
with the loop state consed on, for the induction). -/
theorem chain_ne_cons_collapse (xs : List Location) :
    ∀ a, List.Chain' (fun x y => x ≠ y) (a :: collapse a xs) := by
  induction xs with
  | nil =>
    intro a
    exact List.chain'_singleton a
  | cons x rest ih =>
    intro a
    by_cases hax : a = x
    · rw [hax, collapse_cons_self]
      exact ih x
    · rw [collapse_cons_ne a x rest hax]
      exact List.chain'_cons.mpr ⟨hax, ih x⟩

/-- The output of the collapsing loop has no two consecutive equal
values. -/
theorem chain'_ne_collapse (a : Location) (xs : List Location) :
    List.Chain' (fun x y => x ≠ y) (collapse a xs) :=
  (chain_ne_cons_collapse xs a).tail

/-- A list with no element equal to the state or to its successor passes
through the collapsing loop unchanged: only adjacent repeats are
collapsed. -/
theorem collapse_of_chain (xs : List Location) :
    ∀ a, List.Chain (fun x y => x ≠ y) a xs → collapse a xs = xs := by
  induction xs with
  | nil =>
    intro a _
    rfl
  | cons x rest ih =>
    intro a h
    rcases List.chain_cons.mp h with ⟨hax, hrest⟩
    simp [collapse, hax, ih x hrest]

/-- `linestring_add_location` calls leave the session stack unchanged. -/
theorem run_sessions_ls_adds (locs : List Location) :
    ∀ st rest, run_sessions st (locs.map Event.linestring_add_location ++ rest) =
      run_sessions st rest := by
  induction locs with
  | nil =>
    intro st rest
    rfl
  | cons l ls ih =>
    intro st rest
    simp only [List.map_cons, List.cons_append, run_sessions, session_step]
    exact ih st rest

/-- `multipolygon_add_location` calls leave the session stack unchanged. -/
theorem run_sessions_mp_adds (locs : List Location) :
    ∀ st rest, run_sessions st (locs.map Event.multipolygon_add_location ++ rest) =
      run_sessions st rest := by
  induction locs with
  | nil =>
    intro st rest
    rfl
  | cons l ls ih =>
    intro st rest
    simp only [List.map_cons, List.cons_append, run_sessions, session_step]
    exact ih st rest

/-- The events of one area item form a closed bracket: they return the
session stack to where it started. -/
theorem run_sessions_ring_events (item : AreaItem) :
    ∀ st rest, run_sessions st (ring_events item ++ rest) = run_sessions st rest := by
  obtain ⟨t, ns⟩ := item
  intro st rest
  cases t <;>
    simp only [ring_events, List.cons_append, List.nil_append, List.append_eq,
      run_sessions, session_step] <;>
    rw [List.append_assoc, run_sessions_mp_adds] <;>
    simp only [List.append_eq, List.nil_append, List.singleton_append,
      run_sessions, session_step]

/-- The whole item loop of `create_multipolygon` returns the session stack
to where it started. -/
theorem run_sessions_area_body (items : List AreaItem) :
    ∀ st rest, run_sessions st (items.flatMap ring_events ++ rest) =
      run_sessions st rest := by
  induction items with
  | nil =>
    intro st rest
    rfl
  | cons it its ih =>
    intro st rest
    rw [List.flatMap_cons, List.append_assoc, run_sessions_ring_events]
    exact ih st rest

/-- When no add fails, the add run performs exactly one
`linestring_add_location` call per emitted location. -/
theorem linestring_add_run_of_no_error (locs : List Location) :
    (linestring_add_run locs).2 = none →
    (linestring_add_run locs).1 = locs.map Event.linestring_add_location := by
  induction locs with
  | nil =>
    intro _
    rfl
  | cons l ls ih =>
    intro h
    by_cases hl : l = Location.undefined
    · exfalso
      simp [linestring_add_run, hl] at h
    · simp only [linestring_add_run, if_neg hl] at h ⊢
      simp [List.map_cons, ih h]

/-- C1 (amended): on every construction call that completes without an
error, every backend session that was opened is closed by its matching
finish exactly once — the trace obeys the bracket discipline and ends with
all sessions closed. -/
theorem sessions_balanced_on_success :
    (∀ (wnl : List NodeRef) (un : use_nodes) (dir : direction),
      (create_linestring wnl un dir).2 = none →
      sessions_balanced (create_linestring wnl un dir).1 = true) ∧
    (∀ items : List AreaItem,
      (create_multipolygon items).2 = none →
      sessions_balanced (create_multipolygon items).1 = true) := by
  constructor
  · intro wnl un dir h
    cases hp : (linestring_add_run (linestring_points wnl un dir)).2 with
    | some e =>
      exfalso
      simp only [create_linestring, hp] at h
      exact Option.some_ne_none e h
    | none =>
      have htr := linestring_add_run_of_no_error _ hp
      simp only [create_linestring, hp, htr, sessions_balanced]
      rw [List.cons_append]
      simp only [run_sessions, session_step, run_sessions_ls_adds]
      decide
  · intro items h
    by_cases hn : num_rings items = 0
    · exfalso
      simp only [create_multipolygon, if_pos hn] at h
      exact Option.some_ne_none _ h
    · simp only [create_multipolygon, if_neg hn, sessions_balanced]
      rw [List.cons_append]
      simp only [run_sessions, session_step, run_sessions_area_body]
      decide

/-- C1 counterexample: `create_multipolygon` on an empty Area opens the
multipolygon session, raises `geometry_error("invalid area")`, and never
calls `multipolygon_finish` — the error exit path leaves the session
open, so the claim's "closed exactly once on every exit path" is false. -/
theorem create_multipolygon_empty_area_session_left_open :
    (create_multipolygon []).1 = [Event.multipolygon_start] ∧
    (create_multipolygon []).2 = some (GeomError.geometry_error "invalid area") ∧
    Event.multipolygon_finish ∉ (create_multipolygon []).1 ∧
    sessions_balanced (create_multipolygon []).1 = false := by
  refine ⟨rfl, rfl, by decide, rfl⟩

/-- Witness for `sessions_balanced_on_success` at a concrete two-point way
and a concrete one-outer-ring area. -/
theorem sessions_balanced_on_success_witness :
    sessions_balanced (create_linestring
      [⟨1, Location.coord 1 2⟩, ⟨2, Location.coord 3 4⟩]
      use_nodes.unique direction.forward).1 = true ∧
    sessions_balanced (create_multipolygon
      [⟨item_type.outer_ring,
        [⟨1, Location.coord 0 0⟩, ⟨2, Location.coord 1 0⟩,
         ⟨3, Location.coord 0 1⟩, ⟨1, Location.coord 0 0⟩]⟩]).1 = true :=
  ⟨sessions_balanced_on_success.1 _ _ _ (by decide),
   sessions_balanced_on_success.2 _ (by decide)⟩

/-- C2 counterexample: with `use_nodes::unique`, a node sequence beginning
with an undefined Location breaks the reversal symmetry.  Forward, the
undefined first location equals the initial `last_location` sentinel and is
skipped; backward, it is visited last, differs from the previously emitted
location, and is emitted. -/
theorem linestring_points_backward_ne_reverse_forward :
    linestring_points
        [⟨1, Location.undefined⟩, ⟨2, Location.coord 1 1⟩, ⟨3, Location.coord 2 2⟩]
        use_nodes.unique direction.backward ≠
      (linestring_points
        [⟨1, Location.undefined⟩, ⟨2, Location.coord 1 1⟩, ⟨3, Location.coord 2 2⟩]
        use_nodes.unique direction.forward).reverse := by
  decide

/-- C2 (amended): for every node sequence whose locations are all defined
and each `use_nodes` value, the coordinate sequence emitted backward is
exactly the reverse of the coordinate sequence emitted forward. -/
theorem linestring_points_backward_eq_reverse (wnl : List NodeRef)
    (un : use_nodes)
    (hdef : ∀ nr ∈ wnl, nr.location ≠ Location.undefined) :
    linestring_points wnl un direction.backward =
      (linestring_points wnl un direction.forward).reverse := by
  have hu : Location.undefined ∉ way_node_locations wnl := by
    intro hmem
    rcases List.mem_map.mp hmem with ⟨nr, hnr, hloc⟩
    exact hdef nr hnr hloc
  cases un with
  | all => rfl
  | unique =>
    show collapse Location.undefined (way_node_locations wnl).reverse = _
    rw [collapse_reverse_of_not_mem _ _ hu]
    rfl

/-- Witness for `linestring_points_backward_eq_reverse` at the way of the
repository's linestring test. -/
theorem linestring_points_backward_eq_reverse_witness :
    linestring_points
        [⟨1, Location.coord 32 42⟩, ⟨3, Location.coord 35 47⟩,
         ⟨4, Location.coord 35 47⟩, ⟨2, Location.coord 36 49⟩]
        use_nodes.unique direction.backward =
      (linestring_points
        [⟨1, Location.coord 32 42⟩, ⟨3, Location.coord 35 47⟩,
         ⟨4, Location.coord 35 47⟩, ⟨2, Location.coord 36 49⟩]
        use_nodes.unique direction.forward).reverse :=
  linestring_points_backward_eq_reverse _ _ (by decide)

/-- A traversal with no two consecutive equal locations and a defined first
location passes through the sentinel-seeded collapsing loop unchanged. -/
theorem collapse_undefined_of_chain (xs : List Location)
    (hchain : List.Chain' (fun a b => a ≠ b) xs)
    (hhead : xs.head? ≠ some Location.undefined) :
    collapse Location.undefined xs = xs := by
  cases xs with
  | nil => rfl
  | cons x rest =>
    have hx : Location.undefined ≠ x := by
      intro h
      exact hhead (by rw [List.head?_cons, h])
    rw [collapse_cons_ne _ _ _ hx]
    have hc : List.Chain (fun a b => a ≠ b) x rest := hchain
    rw [collapse_of_chain rest x hc]

/-- C3: with `use_nodes::unique` and either direction, the emitted
coordinate sequence has no two consecutive equal locations; and whenever
the visited sequence itself has no consecutive repeats (e.g. a closed ring,
whose only repeat is non-consecutive) and starts defined, every visited
location is emitted — only adjacent repeats are ever collapsed. -/
theorem create_linestring_unique_collapsing (wnl : List NodeRef)
    (dir : direction) :
    List.Chain' (fun a b => a ≠ b)
      (linestring_points wnl use_nodes.unique dir) ∧
    (List.Chain' (fun a b => a ≠ b) (traverse wnl dir) →
      (traverse wnl dir).head? ≠ some Location.undefined →
      linestring_points wnl use_nodes.unique dir = traverse wnl dir) := by
  constructor
  · exact chain'_ne_collapse _ _
  · intro hchain hhead
    exact collapse_undefined_of_chain _ hchain hhead

/-- Witness for `create_linestring_unique_collapsing` at a concrete closed
ring: the non-consecutive repeat of the first point survives. -/
theorem create_linestring_unique_collapsing_witness :
    linestring_points
        [⟨1, Location.coord 0 0⟩, ⟨2, Location.coord 1 0⟩,
         ⟨3, Location.coord 1 1⟩, ⟨1, Location.coord 0 0⟩]
        use_nodes.unique direction.forward =
      traverse
        [⟨1, Location.coord 0 0⟩, ⟨2, Location.coord 1 0⟩,
         ⟨3, Location.coord 1 1⟩, ⟨1, Location.coord 0 0⟩]
        direction.forward :=
  (create_linestring_unique_collapsing
    [⟨1, Location.coord 0 0⟩, ⟨2, Location.coord 1 0⟩,
     ⟨3, Location.coord 1 1⟩, ⟨1, Location.coord 0 0⟩]
    direction.forward).2 (by simp [traverse, way_node_locations]) (by decide)

/-- C4: `create_multipolygon` appends every ring's points with the
unconditional consecutive-duplicate collapsing of `add_points` — there is
no `use_nodes` switch; the emitted ring points never contain two
consecutive equal locations, rings without consecutive repeats (such as a
closed ring, whose closure repeat is non-consecutive) are emitted in full,
and both the outer-ring and the inner-ring branch wrap exactly these
collapsed points. -/
theorem create_multipolygon_ring_collapsing (nodes : List NodeRef) :
    List.Chain' (fun a b => a ≠ b) (add_points nodes) ∧
    (List.Chain' (fun a b => a ≠ b) (way_node_locations nodes) →
      (way_node_locations nodes).head? ≠ some Location.undefined →
      add_points nodes = way_node_locations nodes) ∧
    ring_events ⟨item_type.outer_ring, nodes⟩ =
      Event.multipolygon_outer_ring_start ::
        (add_points nodes).map Event.multipolygon_add_location ++
          [Event.multipolygon_outer_ring_finish] ∧
    ring_events ⟨item_type.inner_ring, nodes⟩ =
      Event.multipolygon_inner_ring_start ::
        (add_points nodes).map Event.multipolygon_add_location ++
          [Event.multipolygon_inner_ring_finish] := by
  refine ⟨chain'_ne_collapse _ _, ?_, rfl, rfl⟩
  intro hchain hhead
  exact collapse_undefined_of_chain _ hchain hhead

/-- Witness for `create_multipolygon_ring_collapsing` at a concrete closed
ring. -/
theorem create_multipolygon_ring_collapsing_witness :
    add_points
        [⟨1, Location.coord 0 0⟩, ⟨2, Location.coord 9 0⟩,
         ⟨3, Location.coord 9 9⟩, ⟨1, Location.coord 0 0⟩] =
      way_node_locations
        [⟨1, Location.coord 0 0⟩, ⟨2, Location.coord 9 0⟩,
         ⟨3, Location.coord 9 9⟩, ⟨1, Location.coord 0 0⟩] :=
  (create_multipolygon_ring_collapsing
    [⟨1, Location.coord 0 0⟩, ⟨2, Location.coord 9 0⟩,
     ⟨3, Location.coord 9 9⟩, ⟨1, Location.coord 0 0⟩]).2.1
    (by simp [way_node_locations]) (by decide)

/-- `create_linestring` depends on the way only through the emitted
coordinate sequence. -/
theorem create_linestring_congr (w1 w2 : List NodeRef) (un1 un2 : use_nodes)
    (d1 d2 : direction)
    (h : linestring_points w1 un1 d1 = linestring_points w2 un2 d2) :
    create_linestring w1 un1 d1 = create_linestring w2 un2 d2 := by
  simp only [create_linestring, h]

/-- C9: the duplicate-collapsing state starts as the undefined sentinel, so
a first visited node with an undefined Location compares equal to it and is
silently dropped: the whole construction (trace and outcome) is the same as
if the node were absent, and in particular no `invalid_location` is raised
for it.  This holds for the unique-mode linestring in both directions (the
first visited node is the last stored node when backward) and for
`add_points`. -/
theorem undefined_first_visited_location_skipped (id : Int)
    (rest : List NodeRef) (ring : List NodeRef) :
    create_linestring (⟨id, Location.undefined⟩ :: rest)
        use_nodes.unique direction.forward =
      create_linestring rest use_nodes.unique direction.forward ∧
    create_linestring (rest ++ [⟨id, Location.undefined⟩])
        use_nodes.unique direction.backward =
      create_linestring rest use_nodes.unique direction.backward ∧
    add_points (⟨id, Location.undefined⟩ :: ring) = add_points ring := by
  refine ⟨?_, ?_, ?_⟩
  · refine create_linestring_congr _ _ _ _ _ _ ?_
    show collapse Location.undefined
        (Location.undefined :: way_node_locations rest) = _
    rw [collapse_cons_self]
    rfl
  · refine create_linestring_congr _ _ _ _ _ _ ?_
    show collapse Location.undefined
        (way_node_locations (rest ++ [⟨id, Location.undefined⟩])).reverse = _
    rw [way_node_locations, List.map_append, List.reverse_append]
    simp only [List.map_cons, List.map_nil, List.reverse_cons, List.reverse_nil,
      List.nil_append, List.singleton_append]
    rw [collapse_cons_self]
    rfl
  · show collapse Location.undefined
        (Location.undefined :: way_node_locations ring) = _
    rw [collapse_cons_self]
    rfl

/-- C5: `create_multipolygon` fails with `geometry_error("invalid area")`
exactly when the number of outer and inner rings over the Area's items is
zero; with at least one ring it completes the multipolygon session (the
trace ends with `multipolygon_finish`) and returns without error. -/
theorem create_multipolygon_invalid_area_iff (items : List AreaItem) :
    ((create_multipolygon items).2 =
        some (GeomError.geometry_error "invalid area") ↔
      num_rings items = 0) ∧
    (num_rings items ≠ 0 →
      (create_multipolygon items).2 = none ∧
      (create_multipolygon items).1.getLast? = some Event.multipolygon_finish) := by
  by_cases hn : num_rings items = 0
  · refine ⟨⟨fun _ => hn, fun _ => ?_⟩, fun h => absurd hn h⟩
    simp [create_multipolygon, hn]
  · refine ⟨⟨fun h => ?_, fun h => absurd h hn⟩, fun _ => ⟨?_, ?_⟩⟩
    · exfalso
      simp only [create_multipolygon, if_neg hn] at h
      exact Option.noConfusion h
    · simp [create_multipolygon, hn]
    · simp only [create_multipolygon, if_neg hn]
      exact List.getLast?_concat _

/-- Witness for `create_multipolygon_invalid_area_iff` at an Area with one
outer ring. -/
theorem create_multipolygon_invalid_area_iff_witness :
    (create_multipolygon
        [⟨item_type.outer_ring, [⟨1, Location.coord 0 0⟩]⟩]).2 = none ∧
    (create_multipolygon
        [⟨item_type.outer_ring, [⟨1, Location.coord 0 0⟩]⟩]).1.getLast? =
      some Event.multipolygon_finish :=
  (create_multipolygon_invalid_area_iff _).2 (by decide)

/-- An item that is neither an outer nor an inner ring produces no backend
calls at all. -/
theorem ring_events_eq_nil (item : AreaItem)
    (h1 : item.type ≠ item_type.outer_ring)
    (h2 : item.type ≠ item_type.inner_ring) : ring_events item = [] := by
  obtain ⟨t, ns⟩ := item
  cases t <;> first | rfl | exact absurd rfl h1 | exact absurd rfl h2

/-- An item that is neither an outer nor an inner ring does not count as a
ring. -/
theorem is_ring_eq_false (t : item_type) (h1 : t ≠ item_type.outer_ring)
    (h2 : t ≠ item_type.inner_ring) : is_ring t = false := by
  cases t <;> first | rfl | exact absurd rfl h1 | exact absurd rfl h2

/-- Removing one non-ring item anywhere in the item list leaves
`create_multipolygon` unchanged: the item opens no sub-session, contributes
no points, and does not increment the ring count. -/
theorem create_multipolygon_middle_non_ring (item : AreaItem)
    (pre post : List AreaItem) (h1 : item.type ≠ item_type.outer_ring)
    (h2 : item.type ≠ item_type.inner_ring) :
    create_multipolygon (pre ++ item :: post) =
      create_multipolygon (pre ++ post) := by
  have hre : ring_events item = [] := ring_events_eq_nil item h1 h2
  have hir : is_ring item.type = false := is_ring_eq_false item.type h1 h2
  have hnum : num_rings (pre ++ item :: post) = num_rings (pre ++ post) := by
    simp [num_rings, List.filter_append, List.filter_cons, hir]
  have hbody : (pre ++ item :: post).flatMap ring_events =
      (pre ++ post).flatMap ring_events := by
    simp [List.flatMap_append, List.flatMap_cons, hre]
  simp only [create_multipolygon, hnum, hbody]

/-- C10: `create_multipolygon` silently skips every item whose type is
neither `outer_ring` nor `inner_ring` — deleting such an item changes
nothing — and an Area whose items are all of other types behaves exactly
like the empty Area, failing with `geometry_error("invalid area")`. -/
theorem create_multipolygon_skips_non_ring_items :
    (∀ (item : AreaItem) (pre post : List AreaItem),
      item.type ≠ item_type.outer_ring → item.type ≠ item_type.inner_ring →
      create_multipolygon (pre ++ item :: post) =
        create_multipolygon (pre ++ post)) ∧
    (∀ items : List AreaItem,
      (∀ it ∈ items,
        it.type ≠ item_type.outer_ring ∧ it.type ≠ item_type.inner_ring) →
      create_multipolygon items = create_multipolygon []) := by
  refine ⟨create_multipolygon_middle_non_ring, ?_⟩
  intro items
  induction items with
  | nil =>
    intro _
    rfl
  | cons it its ih =>
    intro h
    have h1 := (h it (List.mem_cons_self it its)).1
    have h2 := (h it (List.mem_cons_self it its)).2
    have step : create_multipolygon ([] ++ it :: its) =
        create_multipolygon ([] ++ its) :=
      create_multipolygon_middle_non_ring it [] its h1 h2
    exact step.trans (ih fun x hx => h x (List.mem_cons_of_mem it hx))

/-- Witness for `create_multipolygon_skips_non_ring_items`: deleting a
tag-list item between two rings changes nothing, and an Area holding only
non-ring items equals the empty Area. -/
theorem create_multipolygon_skips_non_ring_items_witness :
    create_multipolygon
        [⟨item_type.outer_ring, [⟨1, Location.coord 0 0⟩]⟩,
         ⟨item_type.tag_list, [⟨9, Location.coord 5 5⟩]⟩,
         ⟨item_type.inner_ring, [⟨2, Location.coord 1 1⟩]⟩] =
      create_multipolygon
        [⟨item_type.outer_ring, [⟨1, Location.coord 0 0⟩]⟩,
         ⟨item_type.inner_ring, [⟨2, Location.coord 1 1⟩]⟩] ∧
    create_multipolygon
        [⟨item_type.tag_list, []⟩, ⟨item_type.way_node_list, []⟩] =
      create_multipolygon [] :=
  ⟨create_multipolygon_skips_non_ring_items.1
      ⟨item_type.tag_list, [⟨9, Location.coord 5 5⟩]⟩
      [⟨item_type.outer_ring, [⟨1, Location.coord 0 0⟩]⟩]
      [⟨item_type.inner_ring, [⟨2, Location.coord 1 1⟩]⟩]
      (by decide) (by decide),
   create_multipolygon_skips_non_ring_items.2 _ (by decide)⟩

/-- C8: `create_point` on an undefined Location fails with
`invalid_location`; the three overloads (Location, Node, NodeRef) all
delegate to the backend's `make_point` on the entity's Location,
propagating its result — hence its errors — unchanged. -/
theorem create_point_delegation :
    create_point Location.undefined = Except.error GeomError.invalid_location ∧
    (∀ loc : Location, create_point loc = make_point loc) ∧
    (∀ n : Node, create_point_node n = make_point n.location) ∧
    (∀ nr : NodeRef, create_point_node_ref nr = make_point nr.location) :=
  ⟨rfl, fun _ => rfl, fun _ => rfl, fun _ => rfl⟩

/-- The single-handler dispatch equals the kind-appropriate callback when
the type tag is legal and `runtime_error("unknown type")` otherwise. -/
theorem kind_call_spec (d : DiffObject) (h : Nat) :
    apply_diff_iterator_recurse d h =
      match kind_call d h with
      | some c => Except.ok c
      | none => Except.error "unknown type" := by
  obtain ⟨t, i⟩ := d
  cases t <;> rfl

/-- On a diff with a legal type tag, the handler-pack recursion invokes one
kind-appropriate callback per handler, in registration order. -/
theorem apply_diff_recurse_of_legal (d : DiffObject)
    (hd : d.type = item_type.node ∨ d.type = item_type.way ∨
      d.type = item_type.relation) (hs : List Nat) :
    apply_diff_recurse d hs = Except.ok (hs.filterMap (kind_call d)) ∧
    (hs.filterMap (kind_call d)).length = hs.length := by
  have hsome : ∀ h : Nat, ∃ c, kind_call d h = some c := by
    intro h
    rcases hd with h1 | h1 | h1
    · exact ⟨HandlerCall.node h d, by simp [kind_call, h1]⟩
    · exact ⟨HandlerCall.way h d, by simp [kind_call, h1]⟩
    · exact ⟨HandlerCall.relation h d, by simp [kind_call, h1]⟩
  induction hs with
  | nil => exact ⟨rfl, rfl⟩
  | cons x xs ih =>
    rcases hsome x with ⟨c, hc⟩
    refine ⟨?_, ?_⟩
    · simp only [apply_diff_recurse, kind_call_spec, hc, List.filterMap_cons,
        ih.1]
    · simp only [List.filterMap_cons, hc, List.length_cons, ih.2]

/-- C6: for handlers registered in order `hs` and the diffs `ds` the merge
collaborator produces, `apply_diff` invokes exactly
`ds.length * hs.length` kind-appropriate callbacks, grouped by diff in
stream order and, within each diff, in handler registration order. -/
theorem apply_diff_dispatch (ds : List DiffObject) (hs : List Nat)
    (hleg : ∀ d ∈ ds, d.type = item_type.node ∨ d.type = item_type.way ∨
      d.type = item_type.relation) :
    apply_diff ds hs =
      Except.ok (ds.flatMap (fun d => hs.filterMap (kind_call d))) ∧
    (ds.flatMap (fun d => hs.filterMap (kind_call d))).length =
      ds.length * hs.length := by
  revert hleg
  induction ds with
  | nil =>
    intro _
    exact ⟨rfl, by simp⟩
  | cons d ds ih =>
    intro hleg
    have hd := hleg d (List.mem_cons_self d ds)
    obtain ⟨ha, hb⟩ := apply_diff_recurse_of_legal d hd hs
    obtain ⟨hc, hlen⟩ := ih fun x hx => hleg x (List.mem_cons_of_mem d hx)
    refine ⟨?_, ?_⟩
    · simp only [apply_diff, ha, hc, List.flatMap_cons]
    · simp only [List.flatMap_cons, List.length_append, hb, hlen,
        List.length_cons]
      ring

/-- Witness for `apply_diff_dispatch`: two handlers, one node diff and one
way diff — four callbacks, diff-major order. -/
theorem apply_diff_dispatch_witness :
    apply_diff [⟨item_type.node, 1⟩, ⟨item_type.way, 2⟩] [0, 1] =
      Except.ok
        [HandlerCall.node 0 ⟨item_type.node, 1⟩,
         HandlerCall.node 1 ⟨item_type.node, 1⟩,
         HandlerCall.way 0 ⟨item_type.way, 2⟩,
         HandlerCall.way 1 ⟨item_type.way, 2⟩] ∧
    ([⟨item_type.node, 1⟩, ⟨item_type.way, 2⟩].flatMap
        (fun d => [0, 1].filterMap (kind_call d))).length = 2 * 2 :=
  apply_diff_dispatch [⟨item_type.node, 1⟩, ⟨item_type.way, 2⟩] [0, 1]
    (by decide)

/-- C7: a DiffObject whose type tag lies outside the closed set
`{node, way, relation}` makes the dispatcher throw
`runtime_error("unknown type")` — it is never silently ignored — while each
of the three legal tags invokes the matching handler callback with the
DiffObject (down-cast to the corresponding view in the C++ code). -/
theorem apply_diff_unknown_type_fatal (d : DiffObject) (h : Nat) :
    (d.type ≠ item_type.node → d.type ≠ item_type.way →
      d.type ≠ item_type.relation →
      apply_diff_iterator_recurse d h = Except.error "unknown type") ∧
    (d.type = item_type.node →
      apply_diff_iterator_recurse d h = Except.ok (HandlerCall.node h d)) ∧
    (d.type = item_type.way →
      apply_diff_iterator_recurse d h = Except.ok (HandlerCall.way h d)) ∧
    (d.type = item_type.relation →
      apply_diff_iterator_recurse d h = Except.ok (HandlerCall.relation h d)) := by
  obtain ⟨t, i⟩ := d
  cases t <;>
    refine ⟨fun h1 h2 h3 => ?_, fun h1 => ?_, fun h1 => ?_, fun h1 => ?_⟩ <;>
    first
      | rfl
      | exact absurd rfl h1
      | exact absurd rfl h2
      | exact absurd rfl h3
      | cases h1

/-- Witness for `apply_diff_unknown_type_fatal`: a changeset-tagged diff is
fatal, a node-tagged diff reaches the node callback. -/
theorem apply_diff_unknown_type_fatal_witness :
    apply_diff_iterator_recurse ⟨item_type.changeset, 7⟩ 0 =
      Except.error "unknown type" ∧
    apply_diff_iterator_recurse ⟨item_type.node, 7⟩ 0 =
      Except.ok (HandlerCall.node 0 ⟨item_type.node, 7⟩) :=
  ⟨(apply_diff_unknown_type_fatal ⟨item_type.changeset, 7⟩ 0).1
      (by decide) (by decide) (by decide),
   (apply_diff_unknown_type_fatal ⟨item_type.node, 7⟩ 0).2.1 rfl⟩

end Osmium
